import Mathlib

/-!
Shallow embedding of the Pallas extensions of the clique proof-of-authority
consensus engine (consensus/clique/pallas.go): supervalidator voting, the
scheduled validator-set override, and the fallback proposer scheduler, with
theorems checking the natural-language specification against the code.
-/

namespace Pallas

/-- Addresses are fixed-width identifiers totally ordered by byte value; we
model them as natural numbers, which carries the same total order. -/
abbrev Address := Nat

/-- SuperTally is the tally for voting on supervalidators (pallas.go). Votes
is a Go int (64 bit); it is modelled as an Int with explicit two-complement
wrapping applied at every arithmetic step that the source performs on it. -/
structure SuperTally where
  Authorize : Bool
  Votes : Int
deriving DecidableEq

/-- Modelled from the spec: one entry of an OverrideSchedule target membership
list (declared in the chain-configuration package, which is not under src):
an address together with its is-super flag. -/
structure PallasValidator where
  Address : Address
  Super : Bool
deriving DecidableEq

/-- Modelled from the spec: the Pallas part of the chain configuration (not
under src): the activation block number beyond which overrides are honored,
and the table of scheduled target membership lists keyed by block number.
The activation pointer and each table lookup may be absent. -/
structure PallasConfig where
  Block : Option Nat
  Validators : Nat → Option (List PallasValidator)

/-- Modelled from the spec: the clique chain-configuration fields read by
pallas.go: the epoch length and the optional Pallas override configuration. -/
structure CliqueConfig where
  Epoch : Nat
  Pallas : Option PallasConfig

/-- Modelled from the spec: the consensus Snapshot (declared in snapshot.go,
which is not under src), restricted to the fields read by the verified
operations: the chain configuration, the signer set and super signer set (Go
maps with unit values, modelled as their key lists in iteration order), the
supervalidator tally (a Go map, modelled as a lookup function since it is
never iterated by the verified operations), and the recent-producers map from
block number to producer address (modelled as an association list in
iteration order, because lastSlot iterates it). Fields of the Go struct not
read by the verified operations (block number, hash, the regular vote tally)
are omitted. -/
structure Snapshot where
  config : CliqueConfig
  Signers : List Address
  SuperSigners : List Address
  SuperTally : Address → Option SuperTally
  Recents : List (Nat × Address)

/-- Two-complement wrap of an integer into the signed 64-bit range, modelling
Go int arithmetic. -/
def wrapInt64 (v : Int) : Int := (v + 2 ^ 63) % 2 ^ 64 - 2 ^ 63

/-- Go map assignment and deletion on the tally map: pointwise update. -/
def mapUpdate (m : Address → Option SuperTally) (a : Address) (v : Option SuperTally) :
    Address → Option SuperTally :=
  fun x => if x = a then v else m x

/-- Go map insertion of a key into a set-valued map (m[k] = struct{}{}): a
no-op when the key is present, otherwise the key joins the key list. -/
def mapInsert (l : List Address) (a : Address) : List Address :=
  if a ∈ l then l else l ++ [a]

/-- Go map deletion of a key: the key is removed from the key list. -/
def mapDelete (l : List Address) (a : Address) : List Address :=
  l.filter (fun x => x != a)

/-- isSuper (pallas.go): check if signer is currently a supersigner. -/
def isSuper (s : Snapshot) (signer : Address) : Bool :=
  decide (signer ∈ s.SuperSigners)

/-- isPallasActive (pallas.go): check if pallas is active at the given block
number. -/
def isPallasActive (s : Snapshot) (blockNumber : Nat) : Bool :=
  match s.config.Pallas with
  | none => false
  | some p =>
    match p.Block with
    | none => false
    | some b => blockNumber ≥ b

/-- validVoteSuper (pallas.go): whether it makes sense to cast the specified
super vote; super votes can only be cast for addresses which are validators
already. -/
def validVoteSuper (s : Snapshot) (address : Address) (authorize : Bool) : Bool :=
  let regularsigner := decide (address ∈ s.Signers)
  let signer := decide (address ∈ s.SuperSigners)
  (signer && !authorize) || (!signer && regularsigner && authorize)

/-- castSuper (pallas.go): adds a new vote into the tally; returns the updated
snapshot paired with the Go boolean result. -/
def castSuper (s : Snapshot) (address : Address) (authorize : Bool) : Snapshot × Bool :=
  if !(validVoteSuper s address authorize) then (s, false)
  else
    match s.SuperTally address with
    | some old =>
      ({ s with SuperTally := (mapUpdate s.SuperTally address
          (some { old with Votes := wrapInt64 (old.Votes + 1) })) }, true)
    | none =>
      ({ s with SuperTally := (mapUpdate s.SuperTally address
          (some { Authorize := authorize, Votes := 1 })) }, true)

/-- uncastSuper (pallas.go): removes a previously cast vote from the tally. -/
def uncastSuper (s : Snapshot) (address : Address) (authorize : Bool) : Snapshot × Bool :=
  match s.SuperTally address with
  | none => (s, false)
  | some tally =>
    if tally.Authorize != authorize then (s, false)
    else if tally.Votes > 1 then
      ({ s with SuperTally := (mapUpdate s.SuperTally address
          (some { tally with Votes := wrapInt64 (tally.Votes - 1) })) }, true)
    else
      ({ s with SuperTally := mapUpdate s.SuperTally address none }, true)

/-- hasPassedSuper (pallas.go): tally.Votes > len(s.SuperSigners)*3/4 in Go
int arithmetic: the multiplication wraps at 64 bits and the division truncates
toward zero. The blockNumber argument is unused, as in the source. -/
def hasPassedSuper (s : Snapshot) (tally : SuperTally) (_blockNumber : Nat) : Bool :=
  tally.Votes > Int.tdiv (wrapInt64 ((s.SuperSigners.length : Int) * 3)) 4

/-- The removal loop of applyPallasOverride (pallas.go): iterate over the old
signer keys; every old signer absent from the new set is deleted from Signers
and, when present there, also from SuperSigners. The accumulator is the pair
(Signers, SuperSigners). -/
def removeOldLoop (newSigners : List Address) :
    List Address → List Address × List Address → List Address × List Address
  | [], acc => acc
  | oldSigner :: rest, acc =>
    removeOldLoop newSigners rest
      (if oldSigner ∈ newSigners then acc
       else
         (mapDelete acc.1 oldSigner,
          if oldSigner ∈ acc.2 then mapDelete acc.2 oldSigner else acc.2))

/-- The addition loop of applyPallasOverride (pallas.go): iterate over the
target list in order; a target address absent from Signers is added (and added
to SuperSigners when flagged super); afterwards every target address flagged
super is unconditionally added to SuperSigners. -/
def addNewLoop : List PallasValidator → List Address × List Address →
    List Address × List Address
  | [], acc => acc
  | newSigner :: rest, acc =>
    let acc1 :=
      if newSigner.Address ∈ acc.1 then acc
      else
        (acc.1 ++ [newSigner.Address],
         if newSigner.Super then mapInsert acc.2 newSigner.Address else acc.2)
    addNewLoop rest
      (if newSigner.Super then (acc1.1, mapInsert acc1.2 newSigner.Address) else acc1)

/-- The lookup s.config.Pallas.Validators[n] (pallas.go); the source performs
it only after isPallasActive has established that the Pallas configuration is
present. -/
def pallasValidatorsAt (s : Snapshot) (n : Nat) : Option (List PallasValidator) :=
  match s.config.Pallas with
  | none => none
  | some p => p.Validators n

/-- applyPallasOverride (pallas.go): if pallas is active at the header number,
the next block number is an epoch boundary, and a target list is scheduled for
it, replace the signer sets via the removal and addition loops and clear
Recents. -/
def applyPallasOverride (s : Snapshot) (headerNumber : Nat) : Snapshot :=
  if isPallasActive s (headerNumber + 1 - 1) then
    if (headerNumber + 1) % s.config.Epoch = 0 then
      match pallasValidatorsAt s (headerNumber + 1) with
      | some nextSigners =>
        { s with
          Signers := (addNewLoop nextSigners
            (removeOldLoop (nextSigners.map (fun v => v.Address)) s.Signers
              (s.Signers, s.SuperSigners))).1,
          SuperSigners := (addNewLoop nextSigners
            (removeOldLoop (nextSigners.map (fun v => v.Address)) s.Signers
              (s.Signers, s.SuperSigners))).2,
          Recents := [] }
      | none => s
    else s
  else s

/-- Modelled from the spec: signers() (snapshot.go, not under src) returns the
signer-set members sorted ascending by address value. -/
def signers (s : Snapshot) : List Address :=
  List.insertionSort (· ≤ ·) s.Signers

/-- superSigners (pallas.go): the super signer keys sorted ascending. -/
def superSigners (s : Snapshot) : List Address :=
  List.insertionSort (· ≤ ·) s.SuperSigners

/-- The scan loop of lastSlot (pallas.go): walk the Recents entries in
iteration order and return the block number of the first entry whose producer
is the given signer, or 0 when none matches. -/
def recentsScan : List (Nat × Address) → Address → Nat
  | [], _ => 0
  | (bn, recent) :: rest, signer =>
    if recent = signer then bn else recentsScan rest signer

/-- lastSlot (pallas.go): index the sorted signer list at the given slot (a Go
slice access, which panics out of range: modelled as none) and scan Recents
for the signer found there. -/
def lastSlot (s : Snapshot) (slot : Nat) : Option Nat :=
  match (signers s).get? slot with
  | none => none
  | some signer => some (recentsScan s.Recents signer)

/-- The loop of offset (pallas.go): index of the first occurrence of the
signer in the list, or the length of the list when it is absent. -/
def offsetLoop : List Address → Address → Nat
  | [], _ => 0
  | a :: rest, signer => if a = signer then 0 else offsetLoop rest signer + 1

/-- offset (pallas.go): the slot of the calling signer in the sorted signer
list, or the signer count as a sentinel when it is not a signer. Go returns
int64; the value is always a nonnegative index or the length, so Nat is an
exact model. -/
def offset (s : Snapshot) (signer : Address) : Nat :=
  offsetLoop (signers s) signer

/-- The local primarySigner of computeDelay (pallas.go): number % signerCount. -/
def primarySlot (s : Snapshot) (number : Nat) : Nat :=
  number % (signers s).length

/-- The local secondarySigner of computeDelay (pallas.go):
(number%signerCount - 1 + signerCount/2) % signerCount in Go uint64
arithmetic; the subtraction of 1 wraps modulo 2^64, modelled by adding
2^64 - 1 before reducing modulo 2^64. -/
def secondarySlot (s : Snapshot) (number : Nat) : Nat :=
  ((number % (signers s).length + (2 ^ 64 - 1) + (signers s).length / 2) % 2 ^ 64) %
    (signers s).length

/-- computeDelay (pallas.go). The result is none exactly where Go would panic:
with an empty signer set, number % signerCount is a division by zero (the
leading test), and an out-of-range slot in lastSlot is an out-of-range slice
access. -/
def computeDelay (s : Snapshot) (signer : Address) (number : Nat) :
    Option (Nat × Bool) :=
  if (signers s).length = 0 then none
  else
    (lastSlot s (primarySlot s number)).bind fun primaryLastSlot =>
      if primaryLastSlot = 0 then
        (lastSlot s (secondarySlot s number)).bind fun secondaryLastSlot =>
          if secondaryLastSlot ≠ 0 then
            if secondaryLastSlot % (signers s).length = offset s signer then
              some (1, false)
            else some (2, true)
          else
            if secondarySlot s number = offset s signer then some (1, false)
            else some (2, true)
      else
        (lastSlot s (primaryLastSlot % (signers s).length)).bind
          fun replacedLastSlot =>
            if replacedLastSlot ≠ 0 then
              if secondarySlot s number = offset s signer then some (0, false)
              else some (2, true)
            else
              if primaryLastSlot % (signers s).length = offset s signer then
                some (0, false)
              else if secondarySlot s number = offset s signer then some (1, false)
              else some (2, true)

/-- N successive castSuper calls for the same candidate and direction,
threading the snapshot; the boolean is the conjunction of the per-call
results. -/
def castIter (c : Address) (d : Bool) : Nat → Snapshot → Snapshot × Bool
  | 0, s => (s, true)
  | n + 1, s =>
    let r := castSuper s c d
    let rest := castIter c d n r.1
    (rest.1, r.2 && rest.2)

/-- N successive uncastSuper calls for the same candidate and direction. -/
def uncastIter (c : Address) (d : Bool) : Nat → Snapshot → Snapshot × Bool
  | 0, s => (s, true)
  | n + 1, s =>
    let r := uncastSuper s c d
    let rest := uncastIter c d n r.1
    (rest.1, r.2 && rest.2)

/-! Concrete snapshots used by witnesses and counterexamples. -/

/-- A chain configuration with no Pallas override scheduled. -/
def plainConfig : CliqueConfig := { Epoch := 30000, Pallas := none }

/-- A snapshot for the voting witnesses: signers 5 and 6, of which 6 is super. -/
def voteSnap : Snapshot :=
  { config := plainConfig, Signers := [5, 6], SuperSigners := [6],
    SuperTally := fun _ => none, Recents := [] }

/-- A snapshot whose single signer 9 produced both retained blocks 1 and 2;
Recents is listed in one iteration order. -/
def recA : Snapshot :=
  { config := plainConfig, Signers := [9], SuperSigners := [],
    SuperTally := fun _ => none, Recents := [(1, 9), (2, 9)] }

/-- The same map contents as recA with the entries in the other iteration
order. -/
def recB : Snapshot := { recA with Recents := [(2, 9), (1, 9)] }

/-- The target membership list scheduled in overrideKeepSnap: address 7 is
listed, not flagged super. -/
def overrideKeepList : List PallasValidator := [{ Address := 7, Super := false }]

/-- A snapshot where the single signer 7 is super, and the override scheduled
for block 2 retains 7 without the super flag. -/
def overrideKeepSnap : Snapshot :=
  { config :=
      { Epoch := 2,
        Pallas := some
          { Block := some 0,
            Validators := fun n => if n = 2 then some overrideKeepList else none } },
    Signers := [7], SuperSigners := [7],
    SuperTally := fun _ => none, Recents := [(1, 7)] }

/-- The target membership list scheduled in overrideSwapSnap: address 20
flagged super, address 21 not. -/
def overrideSwapList : List PallasValidator :=
  [{ Address := 20, Super := true }, { Address := 21, Super := false }]

/-- A snapshot with signers 10 (super) and 21, and an override scheduled for
block 2 replacing the set by 20 (super) and 21. -/
def overrideSwapSnap : Snapshot :=
  { config :=
      { Epoch := 2,
        Pallas := some
          { Block := some 0,
            Validators := fun n => if n = 2 then some overrideSwapList else none } },
    Signers := [10, 21], SuperSigners := [10],
    SuperTally := fun _ => none, Recents := [(1, 10)] }

/-- A four-signer snapshot with no recent producers. -/
def schedFreeSnap : Snapshot :=
  { config := plainConfig, Signers := [13, 10, 12, 11], SuperSigners := [],
    SuperTally := fun _ => none, Recents := [] }

/-- A four-signer snapshot where the primary for block 5 (slot 1, signer 11)
last produced block 4, displacing slot 0 (signer 10), which has no further
recent record. -/
def schedSubSnap : Snapshot :=
  { config := plainConfig, Signers := [13, 10, 12, 11], SuperSigners := [],
    SuperTally := fun _ => none, Recents := [(4, 11)] }

/-- A snapshot with an empty signer set. -/
def emptySnap : Snapshot :=
  { config := plainConfig, Signers := [], SuperSigners := [],
    SuperTally := fun _ => none, Recents := [] }

/-! Basic lemmas about the embedding. -/

theorem signers_perm (s : Snapshot) : List.Perm (signers s) s.Signers :=
  List.perm_insertionSort _ _

theorem signers_length (s : Snapshot) : (signers s).length = s.Signers.length :=
  (signers_perm s).length_eq

theorem mem_signers (s : Snapshot) (a : Address) : a ∈ signers s ↔ a ∈ s.Signers :=
  (signers_perm s).mem_iff

theorem signers_length_pos (s : Snapshot) (h : s.Signers ≠ []) :
    0 < (signers s).length := by
  rw [signers_length]
  exact List.length_pos.mpr h

theorem wrapInt64_add_left (a b : Int) :
    wrapInt64 (wrapInt64 a + b) = wrapInt64 (a + b) := by
  unfold wrapInt64; omega

theorem wrapInt64_eq_self {v : Int} (h1 : -(2 ^ 63) ≤ v) (h2 : v < 2 ^ 63) :
    wrapInt64 v = v := by
  unfold wrapInt64; omega

/-- With fewer than 2^63 super-signer triples the Go int arithmetic inside
hasPassedSuper is exact, and the test is votes > floor(3 * count / 4). -/
theorem hasPassedSuper_true_iff (s : Snapshot) (t : SuperTally) (n : Nat)
    (hS : 3 * s.SuperSigners.length < 2 ^ 63) :
    (hasPassedSuper s t n = true ↔
      ((3 * s.SuperSigners.length / 4 : Nat) : Int) < t.Votes) := by
  unfold hasPassedSuper
  have h1 : wrapInt64 ((s.SuperSigners.length : Int) * 3) =
      ((3 * s.SuperSigners.length : Nat) : Int) := by
    unfold wrapInt64; push_cast; omega
  rw [h1]
  have h2 : Int.tdiv ((3 * s.SuperSigners.length : Nat) : Int) 4 =
      ((3 * s.SuperSigners.length / 4 : Nat) : Int) := rfl
  rw [h2]
  simp [gt_iff_lt]

/-- C6: hasSupermajority (hasPassedSuper) returns, for every snapshot whose
super-signer count keeps the Go int arithmetic exact and every nonnegative
vote count, true iff the votes strictly exceed floor(3 * superSignerCount / 4)
under integer floor division; in particular it is false at the floor and true
one above it, for super-signer counts 1, 4, 8 and 100. -/
theorem hasPassedSuper_supermajority_threshold :
    (∀ (s : Snapshot) (t : SuperTally) (n : Nat), 0 ≤ t.Votes →
      3 * s.SuperSigners.length < 2 ^ 63 →
      (hasPassedSuper s t n = true ↔
        ((3 * s.SuperSigners.length / 4 : Nat) : Int) < t.Votes)) ∧
    (∀ S ∈ [1, 4, 8, 100], ∀ (s : Snapshot) (n : Nat), s.SuperSigners.length = S →
      hasPassedSuper s { Authorize := true, Votes := ((3 * S / 4 : Nat) : Int) } n
          = false ∧
      hasPassedSuper s { Authorize := true, Votes := ((3 * S / 4 : Nat) : Int) + 1 } n
          = true) := by
  refine ⟨fun s t n _ hS => hasPassedSuper_true_iff s t n hS, ?_⟩
  intro S hSmem s n hlen
  have hS : 3 * s.SuperSigners.length < 2 ^ 63 := by
    rw [hlen]; fin_cases hSmem <;> norm_num
  constructor
  · rw [← Bool.not_eq_true, hasPassedSuper_true_iff s _ n hS, hlen]
    exact lt_irrefl _
  · rw [hasPassedSuper_true_iff s _ n hS, hlen]
    exact lt_add_one _

/-- Witness for C6: at voteSnap (one super signer) the threshold floor(3/4)=0
is not passed by 0 votes and is passed by 1 vote. -/
theorem hasPassedSuper_supermajority_threshold_witness :
    hasPassedSuper voteSnap { Authorize := true, Votes := 0 } 0 = false ∧
    hasPassedSuper voteSnap { Authorize := true, Votes := 1 } 0 = true := by
  have h := hasPassedSuper_supermajority_threshold.2 1 (by decide) voteSnap 0 (by decide)
  norm_num at h
  exact h

/-- The Go boolean returned by castSuper equals validVoteSuper: a vote is
cast exactly when it is valid. -/
theorem castSuper_snd (s : Snapshot) (c : Address) (d : Bool) :
    (castSuper s c d).2 = validVoteSuper s c d := by
  unfold castSuper
  cases h : validVoteSuper s c d with
  | false => simp [h]
  | true => simp [h]; split <;> rfl

/-- A cast rejected by validVoteSuper leaves the snapshot unchanged. -/
theorem castSuper_fst_of_invalid (s : Snapshot) (c : Address) (d : Bool)
    (h : validVoteSuper s c d = false) : (castSuper s c d).1 = s := by
  unfold castSuper
  rw [h]
  rfl

/-- validVoteSuper in terms of set membership. -/
theorem validVoteSuper_true (s : Snapshot) (c : Address) (d : Bool) :
    validVoteSuper s c d = true ↔
      ((d = true ∧ c ∈ s.Signers ∧ c ∉ s.SuperSigners) ∨
       (d = false ∧ c ∈ s.SuperSigners)) := by
  unfold validVoteSuper
  cases d <;> simp <;> tauto

/-- C4: castVote (castSuper) with promote succeeds iff the candidate is a
signer and not super; with demote iff the candidate is super; under the
SuperSignerSet ⊆ SignerSet invariant both directions fail for a non-signer;
and whenever the cast fails the snapshot is unchanged. -/
theorem castSuper_validity (s : Snapshot) (c : Address) :
    ((castSuper s c true).2 = true ↔ c ∈ s.Signers ∧ c ∉ s.SuperSigners) ∧
    ((castSuper s c false).2 = true ↔ c ∈ s.SuperSigners) ∧
    ((∀ a ∈ s.SuperSigners, a ∈ s.Signers) → c ∉ s.Signers →
      (castSuper s c true).2 = false ∧ (castSuper s c false).2 = false) ∧
    (∀ d : Bool, (castSuper s c d).2 = false → (castSuper s c d).1 = s) := by
  have h1 : (castSuper s c true).2 = true ↔ c ∈ s.Signers ∧ c ∉ s.SuperSigners := by
    rw [castSuper_snd, validVoteSuper_true]; simp
  have h2 : (castSuper s c false).2 = true ↔ c ∈ s.SuperSigners := by
    rw [castSuper_snd, validVoteSuper_true]; simp
  refine ⟨h1, h2, fun hsub hc => ⟨?_, ?_⟩, fun d hd => ?_⟩
  · rw [← Bool.not_eq_true, h1]; tauto
  · rw [← Bool.not_eq_true, h2]; exact fun hmem => hc (hsub c hmem)
  · apply castSuper_fst_of_invalid
    rw [castSuper_snd] at hd
    exact hd

/-- Witness for C4: address 9 is not a signer of voteSnap, so both vote
directions fail there. -/
theorem castSuper_validity_witness :
    (castSuper voteSnap 9 true).2 = false ∧ (castSuper voteSnap 9 false).2 = false :=
  (castSuper_validity voteSnap 9).2.2.1 (by decide) (by decide)

/-- recentsScan returns the first element of the filtered match list, or 0
when no entry matches. -/
theorem recentsScan_eq_filter (l : List (Nat × Address)) (sig : Address) :
    recentsScan l sig =
      (((l.filter fun p => decide (p.2 = sig)).head?.map Prod.fst).getD 0) := by
  induction l with
  | nil => rfl
  | cons p rest ih =>
    obtain ⟨bn, r⟩ := p
    by_cases h : r = sig
    · simp [recentsScan, h]
    · simp [recentsScan, h, ih]

/-- Permutation invariance of recentsScan when at most one entry matches. -/
theorem recentsScan_perm_of_subsingleton (l₁ l₂ : List (Nat × Address)) (sig : Address)
    (hperm : List.Perm l₁ l₂)
    (huniq : (l₁.filter fun p => decide (p.2 = sig)).length ≤ 1) :
    recentsScan l₁ sig = recentsScan l₂ sig := by
  rw [recentsScan_eq_filter, recentsScan_eq_filter]
  have hf : List.Perm (l₁.filter fun p => decide (p.2 = sig))
      (l₂.filter fun p => decide (p.2 = sig)) := hperm.filter _
  cases hl : l₁.filter fun p => decide (p.2 = sig) with
  | nil =>
    rw [hl] at hf
    rw [List.Perm.eq_nil hf.symm]
  | cons x xs =>
    rw [hl] at hf huniq
    have hxs : xs = [] := by
      cases xs with
      | nil => rfl
      | cons y ys => simp at huniq
    subst hxs
    rw [List.perm_singleton.mp hf.symm]

/-- A nonzero recentsScan result is the block number of a retained entry of
the scanned signer. -/
theorem recentsScan_mem (l : List (Nat × Address)) (sig : Address)
    (h : recentsScan l sig ≠ 0) : (recentsScan l sig, sig) ∈ l := by
  induction l with
  | nil => simp [recentsScan] at h
  | cons p rest ih =>
    obtain ⟨bn, r⟩ := p
    by_cases hr : r = sig
    · subst hr
      simp [recentsScan]
    · simp only [recentsScan, if_neg hr] at h ⊢
      exact List.mem_cons_of_mem _ (ih h)

/-- recentsScan returns 0 when the signer produced no retained entry. -/
theorem recentsScan_eq_zero (l : List (Nat × Address)) (sig : Address)
    (h : ∀ bn, (bn, sig) ∉ l) : recentsScan l sig = 0 := by
  induction l with
  | nil => rfl
  | cons p rest ih =>
    obtain ⟨bn, r⟩ := p
    have hr : r ≠ sig := fun he => h bn (by rw [he]; exact List.mem_cons_self _ _)
    simp only [recentsScan, if_neg hr]
    exact ih fun bn2 hmem => h bn2 (List.mem_cons_of_mem _ hmem)

/-- When every retained block number is nonzero, a scan over entries that
contain a match for the signer cannot return the 0 sentinel. -/
theorem recentsScan_ne_zero (l : List (Nat × Address)) (sig : Address)
    (hkeys : ∀ p ∈ l, p.1 ≠ 0) (bn : Nat) (hmem : (bn, sig) ∈ l) :
    recentsScan l sig ≠ 0 := by
  induction l with
  | nil => simp at hmem
  | cons p rest ih =>
    obtain ⟨b, r⟩ := p
    by_cases hr : r = sig
    · simp only [recentsScan, if_pos hr]
      exact hkeys (b, r) (List.mem_cons_self _ _)
    · simp only [recentsScan, if_neg hr]
      rcases List.mem_cons.mp hmem with he | hmem2
      · exact absurd (congrArg Prod.snd he).symm hr
      · exact ih (fun q hq => hkeys q (List.mem_cons_of_mem _ hq)) hmem2

/-- lastSlot at an in-range slot is the Recents scan for the signer at that
slot. -/
theorem lastSlot_eq_scan (s : Snapshot) (slot : Nat) (sig : Address)
    (hsig : (signers s).get? slot = some sig) :
    lastSlot s slot = some (recentsScan s.Recents sig) := by
  unfold lastSlot
  rw [hsig]

/-- C1 (amended): lastSlot returns, for a slot in range, the block number of
the first Recents entry in iteration order whose producer is the signer at
that slot, or 0 when there is none: a nonzero result is some retained block of
that signer; the result is 0 when the signer has no retained block, and, as
long as no retained entry carries block number 0 (the sentinel proviso of
non-degenerate operation), the result is 0 exactly when the signer has no
retained block; and the result is independent of the iteration order whenever
the signer produced at most one retained block. -/
theorem lastSlot_first_match (s : Snapshot) (slot : Nat) (sig : Address)
    (hsig : (signers s).get? slot = some sig) :
    ((∀ bn, (bn, sig) ∉ s.Recents) → lastSlot s slot = some 0) ∧
    (∀ r, lastSlot s slot = some r → r ≠ 0 → (r, sig) ∈ s.Recents) ∧
    ((∀ p ∈ s.Recents, p.1 ≠ 0) →
      (lastSlot s slot = some 0 ↔ ∀ bn, (bn, sig) ∉ s.Recents)) ∧
    (∀ l₂ : List (Nat × Address), List.Perm s.Recents l₂ →
      (s.Recents.filter fun p => decide (p.2 = sig)).length ≤ 1 →
      lastSlot s slot = lastSlot { s with Recents := l₂ } slot) := by
  refine ⟨fun hno => ?_, fun r hr hr0 => ?_, fun hkeys => ?_, fun l₂ hperm huniq => ?_⟩
  · rw [lastSlot_eq_scan s slot sig hsig, recentsScan_eq_zero _ _ hno]
  · rw [lastSlot_eq_scan s slot sig hsig] at hr
    have hr' : recentsScan s.Recents sig = r := Option.some.inj hr
    rw [← hr']
    exact recentsScan_mem _ _ (hr' ▸ hr0)
  · rw [lastSlot_eq_scan s slot sig hsig]
    constructor
    · intro h0 bn hmem
      exact recentsScan_ne_zero s.Recents sig hkeys bn hmem (Option.some.inj h0)
    · intro hno
      rw [recentsScan_eq_zero _ _ hno]
  · have hsig2 : (signers { s with Recents := l₂ }).get? slot = some sig := hsig
    rw [lastSlot_eq_scan s slot sig hsig, lastSlot_eq_scan _ slot sig hsig2]
    rw [recentsScan_perm_of_subsingleton _ l₂ _ hperm huniq]

/-- Witness for C1 (amended) at voteSnap: slot 0 is signer 5, which has no
retained block, so lastSlot returns 0, and with no retained entry at all the
zero result is equivalent to the signer having no retained block. -/
theorem lastSlot_first_match_witness :
    lastSlot voteSnap 0 = some 0 ∧
    (lastSlot voteSnap 0 = some 0 ↔ ∀ bn, (bn, 5) ∉ voteSnap.Recents) :=
  ⟨(lastSlot_first_match voteSnap 0 5 (by decide)).1
      (fun bn => List.not_mem_nil (bn, 5)),
   (lastSlot_first_match voteSnap 0 5 (by decide)).2.2.1
      (fun p hp => absurd hp (List.not_mem_nil p))⟩

/-- Counterexample to C1 as stated: recA and recB hold the same
RecentProducers map contents (their association lists are permutations of each
other) over the same signer set, signer 9 produced both retained blocks 1 and
2, yet lastSlot returns 1 under one iteration order and 2 under the other: the
result is neither always the largest matching block number nor independent of
map iteration order. -/
theorem lastSlot_order_dependent :
    recA.Signers = recB.Signers ∧ List.Perm recA.Recents recB.Recents ∧
    lastSlot recA 0 = some 1 ∧ lastSlot recB 0 = some 2 :=
  ⟨rfl, by decide, by decide, by decide⟩

/-- lastSlot is defined at every in-range slot. -/
theorem lastSlot_isSome (s : Snapshot) (slot : Nat) (h : slot < (signers s).length) :
    ∃ b, lastSlot s slot = some b := by
  have hg := List.get?_eq_get h
  exact ⟨recentsScan s.Recents ((signers s).get ⟨slot, h⟩), by unfold lastSlot; rw [hg]⟩

/-- The offset loop returns the list length on a non-member. -/
theorem offsetLoop_eq_length {l : List Address} {a : Address} (h : a ∉ l) :
    offsetLoop l a = l.length := by
  induction l with
  | nil => rfl
  | cons x xs ih =>
    have hx : x ≠ a := by rintro rfl; exact h (List.mem_cons_self _ _)
    simp only [offsetLoop, if_neg hx, List.length_cons]
    rw [ih fun hm => h (List.mem_cons_of_mem _ hm)]

/-- offset returns the signer count as sentinel for a non-signer. -/
theorem offset_eq_length (s : Snapshot) (a : Address) (h : a ∉ s.Signers) :
    offset s a = (signers s).length :=
  offsetLoop_eq_length fun hm => h ((mem_signers s a).mp hm)

/-- With a nonzero signer count computeDelay lands in one of the three tiers
(0, false), (1, false) or (2, true). -/
theorem computeDelay_cases (s : Snapshot) (a : Address) (n : Nat)
    (h : 0 < (signers s).length) :
    computeDelay s a n = some (0, false) ∨ computeDelay s a n = some (1, false) ∨
    computeDelay s a n = some (2, true) := by
  have hsc : (signers s).length ≠ 0 := by omega
  obtain ⟨p, hp⟩ := lastSlot_isSome s (primarySlot s n) (Nat.mod_lt _ h)
  unfold computeDelay
  rw [if_neg hsc, hp, Option.some_bind]
  by_cases hp0 : p = 0
  · rw [if_pos hp0]
    obtain ⟨q, hq⟩ := lastSlot_isSome s (secondarySlot s n) (Nat.mod_lt _ h)
    rw [hq, Option.some_bind]
    by_cases hq0 : q ≠ 0
    · rw [if_pos hq0]
      by_cases hrep : q % (signers s).length = offset s a
      · rw [if_pos hrep]; exact Or.inr (Or.inl rfl)
      · rw [if_neg hrep]; exact Or.inr (Or.inr rfl)
    · rw [if_neg hq0]
      by_cases hsec : secondarySlot s n = offset s a
      · rw [if_pos hsec]; exact Or.inr (Or.inl rfl)
      · rw [if_neg hsec]; exact Or.inr (Or.inr rfl)
  · rw [if_neg hp0]
    obtain ⟨rls, hrls⟩ := lastSlot_isSome s (p % (signers s).length) (Nat.mod_lt _ h)
    rw [hrls, Option.some_bind]
    by_cases hr0 : rls ≠ 0
    · rw [if_pos hr0]
      by_cases hsec : secondarySlot s n = offset s a
      · rw [if_pos hsec]; exact Or.inl rfl
      · rw [if_neg hsec]; exact Or.inr (Or.inr rfl)
    · rw [if_neg hr0]
      by_cases hrep : p % (signers s).length = offset s a
      · rw [if_pos hrep]; exact Or.inl rfl
      · rw [if_neg hrep]
        by_cases hsec : secondarySlot s n = offset s a
        · rw [if_pos hsec]; exact Or.inr (Or.inl rfl)
        · rw [if_neg hsec]; exact Or.inr (Or.inr rfl)

/-- C7: with a non-empty SignerSet computeDelay returns a pair whose delay is
in {0, 1, 2} and whose jitter flag is set exactly when the delay is 2. -/
theorem computeDelay_tier_range (s : Snapshot) (a : Address) (n : Nat)
    (h : s.Signers ≠ []) :
    ∃ d w, computeDelay s a n = some (d, w) ∧ d ≤ 2 ∧ (w = true ↔ d = 2) := by
  rcases computeDelay_cases s a n (signers_length_pos s h) with h1 | h1 | h1
  · exact ⟨0, false, h1, by simp⟩
  · exact ⟨1, false, h1, by simp⟩
  · exact ⟨2, true, h1, by simp⟩

/-- Witness for C7 at schedFreeSnap. -/
theorem computeDelay_tier_range_witness :
    ∃ d w, computeDelay schedFreeSnap 10 1 = some (d, w) ∧ d ≤ 2 ∧ (w = true ↔ d = 2) :=
  computeDelay_tier_range schedFreeSnap 10 1 (by decide)

/-- C9: with a non-empty SignerSet a caller that is not a signer always gets
the jittered fallback tier (2, true): its offset is the sentinel signer count,
which no in-range slot value can equal, so no slot-equality branch fires. -/
theorem computeDelay_nonsigner (s : Snapshot) (a : Address) (n : Nat)
    (h : s.Signers ≠ []) (ha : a ∉ s.Signers) :
    computeDelay s a n = some (2, true) := by
  have hpos : 0 < (signers s).length := signers_length_pos s h
  have hsc : (signers s).length ≠ 0 := by omega
  have hoff : offset s a = (signers s).length := offset_eq_length s a ha
  have hsecne : secondarySlot s n ≠ offset s a := by
    rw [hoff]; exact Nat.ne_of_lt (Nat.mod_lt _ hpos)
  obtain ⟨p, hp⟩ := lastSlot_isSome s (primarySlot s n) (Nat.mod_lt _ hpos)
  unfold computeDelay
  rw [if_neg hsc, hp, Option.some_bind]
  by_cases hp0 : p = 0
  · rw [if_pos hp0]
    obtain ⟨q, hq⟩ := lastSlot_isSome s (secondarySlot s n) (Nat.mod_lt _ hpos)
    rw [hq, Option.some_bind]
    by_cases hq0 : q ≠ 0
    · rw [if_pos hq0, if_neg (show q % (signers s).length ≠ offset s a by
        rw [hoff]; exact Nat.ne_of_lt (Nat.mod_lt _ hpos))]
    · rw [if_neg hq0, if_neg hsecne]
  · rw [if_neg hp0]
    obtain ⟨rls, hrls⟩ := lastSlot_isSome s (p % (signers s).length) (Nat.mod_lt _ hpos)
    rw [hrls, Option.some_bind]
    by_cases hr0 : rls ≠ 0
    · rw [if_pos hr0, if_neg hsecne]
    · rw [if_neg hr0, if_neg (show p % (signers s).length ≠ offset s a by
        rw [hoff]; exact Nat.ne_of_lt (Nat.mod_lt _ hpos)), if_neg hsecne]

/-- Witness for C9: address 99 is not a signer of schedFreeSnap. -/
theorem computeDelay_nonsigner_witness :
    computeDelay schedFreeSnap 99 1 = some (2, true) :=
  computeDelay_nonsigner schedFreeSnap 99 1 (by decide) (by decide)

/-- C8: when the primary slot for block n has a nonzero recent record b, the
displaced slot k = b mod signerCount has no recent record, and the caller
occupies slot k, computeDelay returns (0, false): the displaced signer
reclaims its turn immediately and without jitter. -/
theorem computeDelay_reclaim (s : Snapshot) (a : Address) (n b : Nat)
    (h : s.Signers ≠ [])
    (hb : lastSlot s (primarySlot s n) = some b) (hb0 : b ≠ 0)
    (hfree : lastSlot s (b % (signers s).length) = some 0)
    (hk : offset s a = b % (signers s).length) :
    computeDelay s a n = some (0, false) := by
  have hsc : (signers s).length ≠ 0 := by
    have := signers_length_pos s h; omega
  unfold computeDelay
  rw [if_neg hsc, hb, Option.some_bind, if_neg hb0, hfree, Option.some_bind,
    if_neg (by simp : ¬((0 : Nat) ≠ 0)), if_pos hk.symm]

/-- Witness for C8 at schedSubSnap: the primary for block 5 (slot 1, signer
11) last produced block 4, displacing slot 0 = 4 mod 4 (signer 10), which has
no recent record; signer 10 receives (0, false). -/
theorem computeDelay_reclaim_witness :
    computeDelay schedSubSnap 10 5 = some (0, false) :=
  computeDelay_reclaim schedSubSnap 10 5 4 (by decide) (by decide) (by decide)
    (by decide) (by decide)

/-- C10: with a non-empty SignerSet computeDelay and lastSlot are total: every
slot below the signer count is in range for lastSlot and computeDelay returns
a value; with an empty SignerSet the leading modulus of computeDelay is a
division by zero, modelled as none. -/
theorem computeDelay_lastSlot_total (s : Snapshot) (a : Address) (n : Nat) :
    (s.Signers ≠ [] →
      (∀ slot, slot < (signers s).length → (lastSlot s slot).isSome) ∧
      (computeDelay s a n).isSome) ∧
    (s.Signers = [] → computeDelay s a n = none) := by
  constructor
  · intro h
    refine ⟨fun slot hslot => ?_, ?_⟩
    · obtain ⟨b, hb⟩ := lastSlot_isSome s slot hslot
      rw [hb]; rfl
    · rcases computeDelay_cases s a n (signers_length_pos s h) with h1 | h1 | h1 <;>
        rw [h1] <;> rfl
  · intro h
    have h0 : (signers s).length = 0 := by rw [signers_length, h]; rfl
    unfold computeDelay
    rw [if_pos h0]

/-- Witness for C10: totality on the four-signer snapshot, and none on the
empty-signer snapshot. -/
theorem computeDelay_lastSlot_total_witness :
    (computeDelay schedFreeSnap 10 1).isSome ∧ computeDelay emptySnap 10 1 = none :=
  ⟨((computeDelay_lastSlot_total schedFreeSnap 10 1).1 (by decide)).2,
   (computeDelay_lastSlot_total emptySnap 10 1).2 rfl⟩

/-- mapUpdate reads back the written value at the written key. -/
theorem mapUpdate_self (m : Address → Option SuperTally) (a : Address)
    (v : Option SuperTally) : mapUpdate m a v a = v := by
  unfold mapUpdate
  simp

/-- castSuper does not change the signer sets. -/
theorem castSuper_registry (s : Snapshot) (c : Address) (d : Bool) :
    (castSuper s c d).1.Signers = s.Signers ∧
    (castSuper s c d).1.SuperSigners = s.SuperSigners := by
  unfold castSuper
  split
  · exact ⟨rfl, rfl⟩
  · split <;> exact ⟨rfl, rfl⟩

/-- validVoteSuper only reads the signer sets. -/
theorem validVoteSuper_congr {s₁ s₂ : Snapshot} (h1 : s₁.Signers = s₂.Signers)
    (h2 : s₁.SuperSigners = s₂.SuperSigners) (c : Address) (d : Bool) :
    validVoteSuper s₁ c d = validVoteSuper s₂ c d := by
  unfold validVoteSuper
  rw [h1, h2]

/-- A valid cast onto an existing tally increments its (wrapping) counter. -/
theorem castSuper_tally_some (s : Snapshot) (c : Address) (d : Bool) (t : SuperTally)
    (hv : validVoteSuper s c d = true) (ht : s.SuperTally c = some t) :
    (castSuper s c d).1.SuperTally =
      mapUpdate s.SuperTally c (some { t with Votes := wrapInt64 (t.Votes + 1) }) := by
  unfold castSuper
  rw [hv, ht]
  rfl

/-- A valid cast with no existing tally creates one with a single vote. -/
theorem castSuper_tally_none (s : Snapshot) (c : Address) (d : Bool)
    (hv : validVoteSuper s c d = true) (ht : s.SuperTally c = none) :
    (castSuper s c d).1.SuperTally =
      mapUpdate s.SuperTally c (some { Authorize := d, Votes := 1 }) := by
  unfold castSuper
  rw [hv, ht]
  rfl

/-- uncastSuper on a missing tally is a rejected no-op. -/
theorem uncastSuper_not_found (s : Snapshot) (c : Address) (d : Bool)
    (ht : s.SuperTally c = none) : uncastSuper s c d = (s, false) := by
  unfold uncastSuper
  rw [ht]

/-- uncastSuper on a matching tally with more than one vote decrements it. -/
theorem uncastSuper_dec (s : Snapshot) (c : Address) (d : Bool) (t : SuperTally)
    (ht : s.SuperTally c = some t) (hd : t.Authorize = d) (hgt : t.Votes > 1) :
    uncastSuper s c d =
      ({ s with SuperTally := (mapUpdate s.SuperTally c
          (some { t with Votes := wrapInt64 (t.Votes - 1) })) }, true) := by
  unfold uncastSuper
  rw [ht]
  simp [hd, hgt]

/-- uncastSuper on a matching tally with at most one vote deletes it. -/
theorem uncastSuper_del (s : Snapshot) (c : Address) (d : Bool) (t : SuperTally)
    (ht : s.SuperTally c = some t) (hd : t.Authorize = d) (hle : ¬(t.Votes > 1)) :
    uncastSuper s c d =
      ({ s with SuperTally := mapUpdate s.SuperTally c none }, true) := by
  unfold uncastSuper
  rw [ht]
  simp [hd, hle]

/-- Casting k more valid votes onto an existing tally for the same direction
adds k to its wrapping counter, succeeds at every step, and leaves the signer
sets unchanged. -/
theorem castIter_some (c : Address) (d : Bool) :
    ∀ (k : Nat) (s : Snapshot) (v : Int),
      validVoteSuper s c d = true →
      s.SuperTally c = some { Authorize := d, Votes := v } →
      wrapInt64 v = v →
      (castIter c d k s).1.SuperTally c =
        some { Authorize := d, Votes := wrapInt64 (v + k) } ∧
      (castIter c d k s).2 = true ∧
      (castIter c d k s).1.Signers = s.Signers ∧
      (castIter c d k s).1.SuperSigners = s.SuperSigners := by
  intro k
  induction k with
  | zero =>
    intro s v hv ht hw
    refine ⟨?_, rfl, rfl, rfl⟩
    have he : wrapInt64 (v + ((0 : Nat) : Int)) = v := by
      rw [show v + ((0 : Nat) : Int) = v by push_cast; ring, hw]
    rw [he]
    exact ht
  | succ n ih =>
    intro s v hv ht hw
    have hreg := castSuper_registry s c d
    have ht1 : (castSuper s c d).1.SuperTally c =
        some { Authorize := d, Votes := wrapInt64 (v + 1) } := by
      rw [castSuper_tally_some s c d _ hv ht, mapUpdate_self]
    have hv1 : validVoteSuper (castSuper s c d).1 c d = true := by
      rw [validVoteSuper_congr hreg.1 hreg.2]; exact hv
    have hw1 : wrapInt64 (wrapInt64 (v + 1)) = wrapInt64 (v + 1) := by
      have h0 := wrapInt64_add_left (v + 1) 0
      simpa using h0
    have hmain := ih (castSuper s c d).1 (wrapInt64 (v + 1)) hv1 ht1 hw1
    have hstep : (castSuper s c d).2 = true := by rw [castSuper_snd]; exact hv
    refine ⟨?_, ?_, ?_, ?_⟩
    · show (castIter c d n (castSuper s c d).1).1.SuperTally c = _
      rw [hmain.1, wrapInt64_add_left]
      have : v + 1 + (n : Int) = v + ((n + 1 : Nat) : Int) := by push_cast; ring
      rw [this]
    · show ((castSuper s c d).2 && (castIter c d n (castSuper s c d).1).2) = true
      rw [hstep, hmain.2.1]
      rfl
    · show (castIter c d n (castSuper s c d).1).1.Signers = s.Signers
      rw [hmain.2.2.1, hreg.1]
    · show (castIter c d n (castSuper s c d).1).1.SuperSigners = s.SuperSigners
      rw [hmain.2.2.2, hreg.2]

/-- Casting k + 1 valid votes starting from no tally yields a tally of
direction d with wrapping counter 1 + k, succeeding at every step. -/
theorem castIter_from_none (c : Address) (d : Bool) (s : Snapshot) (k : Nat)
    (hv : validVoteSuper s c d = true) (ht : s.SuperTally c = none) :
    (castIter c d (k + 1) s).1.SuperTally c =
      some { Authorize := d, Votes := wrapInt64 (1 + k) } ∧
    (castIter c d (k + 1) s).2 = true ∧
    (castIter c d (k + 1) s).1.Signers = s.Signers ∧
    (castIter c d (k + 1) s).1.SuperSigners = s.SuperSigners := by
  have hreg := castSuper_registry s c d
  have ht1 : (castSuper s c d).1.SuperTally c = some { Authorize := d, Votes := 1 } := by
    rw [castSuper_tally_none s c d hv ht, mapUpdate_self]
  have hv1 : validVoteSuper (castSuper s c d).1 c d = true := by
    rw [validVoteSuper_congr hreg.1 hreg.2]; exact hv
  have hw1 : wrapInt64 1 = 1 := by unfold wrapInt64; norm_num
  have hmain := castIter_some c d k (castSuper s c d).1 1 hv1 ht1 hw1
  have hstep : (castSuper s c d).2 = true := by rw [castSuper_snd]; exact hv
  refine ⟨?_, ?_, ?_, ?_⟩
  · show (castIter c d k (castSuper s c d).1).1.SuperTally c = _
    exact hmain.1
  · show ((castSuper s c d).2 && (castIter c d k (castSuper s c d).1).2) = true
    rw [hstep, hmain.2.1]
    rfl
  · show (castIter c d k (castSuper s c d).1).1.Signers = s.Signers
    rw [hmain.2.2.1, hreg.1]
  · show (castIter c d k (castSuper s c d).1).1.SuperSigners = s.SuperSigners
    rw [hmain.2.2.2, hreg.2]

/-- Revoking m times from a matching tally holding exactly m non-overflowed
votes succeeds at every step and deletes the record. -/
theorem uncastIter_drain (c : Address) (d : Bool) :
    ∀ (m : Nat) (s : Snapshot),
      s.SuperTally c = some { Authorize := d, Votes := (m : Int) } →
      1 ≤ m → m < 2 ^ 63 →
      (uncastIter c d m s).1.SuperTally c = none ∧
      (uncastIter c d m s).2 = true := by
  intro m
  induction m with
  | zero => intro s ht h1 h2; omega
  | succ n ih =>
    intro s ht h1 h2
    by_cases hn : n = 0
    · subst hn
      have hr := uncastSuper_del s c d _ ht rfl (by norm_num)
      refine ⟨?_, ?_⟩
      · show (uncastIter c d 0 (uncastSuper s c d).1).1.SuperTally c = none
        rw [hr]
        exact mapUpdate_self _ _ _
      · show ((uncastSuper s c d).2 && (uncastIter c d 0 (uncastSuper s c d).1).2) = true
        rw [hr]
        rfl
    · have hgt : (((n + 1 : Nat) : Int)) > 1 := by push_cast; omega
      have hr := uncastSuper_dec s c d _ ht rfl hgt
      have ht1 : (uncastSuper s c d).1.SuperTally c =
          some { Authorize := d, Votes := (n : Int) } := by
        rw [hr]
        show mapUpdate s.SuperTally c _ c = _
        rw [mapUpdate_self]
        have : wrapInt64 (((n + 1 : Nat) : Int) - 1) = (n : Int) := by
          rw [show (((n + 1 : Nat) : Int) - 1) = (n : Int) by push_cast; ring]
          exact wrapInt64_eq_self (by omega) (by omega)
        rw [this]
      have hmain := ih (uncastSuper s c d).1 ht1 (by omega) (by omega)
      refine ⟨?_, ?_⟩
      · show (uncastIter c d n (uncastSuper s c d).1).1.SuperTally c = none
        exact hmain.1
      · show ((uncastSuper s c d).2 && (uncastIter c d n (uncastSuper s c d).1).2) = true
        rw [hr] at hmain ⊢
        rw [hmain.2]
        rfl

/-- Any positive number of revokes starting from a missing tally fails. -/
theorem uncastIter_not_found (c : Address) (d : Bool) (s : Snapshot) (k : Nat)
    (ht : s.SuperTally c = none) (hk : 1 ≤ k) : (uncastIter c d k s).2 = false := by
  obtain ⟨m, rfl⟩ : ∃ m, k = m + 1 := ⟨k - 1, by omega⟩
  have hr := uncastSuper_not_found s c d ht
  show ((uncastSuper s c d).2 && (uncastIter c d m (uncastSuper s c d).1).2) = false
  rw [hr]
  rfl

/-- At least two revokes from a matching tally whose counter is at most one
fail: the first deletes the record and the second finds nothing. -/
theorem uncastIter_fail_after_del (c : Address) (d : Bool) (s : Snapshot) (k : Nat)
    (t : SuperTally) (ht : s.SuperTally c = some t) (hd : t.Authorize = d)
    (hle : ¬(t.Votes > 1)) (hk : 2 ≤ k) : (uncastIter c d k s).2 = false := by
  obtain ⟨m, rfl⟩ : ∃ m, k = m + 1 := ⟨k - 1, by omega⟩
  have hr := uncastSuper_del s c d t ht hd hle
  show ((uncastSuper s c d).2 && (uncastIter c d m (uncastSuper s c d).1).2) = false
  rw [hr]
  have hnone : ({ s with SuperTally := mapUpdate s.SuperTally c none } :
      Snapshot).SuperTally c = none := mapUpdate_self _ _ _
  rw [uncastIter_not_found c d _ m hnone (by omega)]
  rfl

/-- C5 (amended): for a candidate with no existing vote record and a direction
valid at the start (and hence, the registry being untouched by casts,
throughout), N casts followed by N revokes succeed at every step and leave the
record absent, for every N with 1 ≤ N ≤ 2^63 - 1, the full range over which
the 64-bit Go vote counter cannot overflow. -/
theorem castIter_uncastIter_roundtrip (s : Snapshot) (c : Address) (d : Bool) (N : Nat)
    (ht : s.SuperTally c = none) (hv : validVoteSuper s c d = true)
    (h1 : 1 ≤ N) (h2 : N ≤ 2 ^ 63 - 1) :
    (castIter c d N s).2 = true ∧
    (uncastIter c d N (castIter c d N s).1).2 = true ∧
    (uncastIter c d N (castIter c d N s).1).1.SuperTally c = none := by
  obtain ⟨k, rfl⟩ : ∃ k, N = k + 1 := ⟨N - 1, by omega⟩
  have hc := castIter_from_none c d s k hv ht
  have hwrap : wrapInt64 (1 + (k : Int)) = ((k + 1 : Nat) : Int) := by
    rw [show (1 + (k : Int)) = ((k + 1 : Nat) : Int) by push_cast; ring]
    exact wrapInt64_eq_self (by omega) (by omega)
  have htally : (castIter c d (k + 1) s).1.SuperTally c =
      some { Authorize := d, Votes := ((k + 1 : Nat) : Int) } := by
    rw [hc.1, hwrap]
  have hu := uncastIter_drain c d (k + 1) (castIter c d (k + 1) s).1 htally
    (by omega) (by omega)
  exact ⟨hc.2.1, hu.2, hu.1⟩

/-- Witness for C5 (amended) at voteSnap with N = 2. -/
theorem castIter_uncastIter_roundtrip_witness :
    (castIter 5 true 2 voteSnap).2 = true ∧
    (uncastIter 5 true 2 (castIter 5 true 2 voteSnap).1).2 = true ∧
    (uncastIter 5 true 2 (castIter 5 true 2 voteSnap).1).1.SuperTally 5 = none :=
  castIter_uncastIter_roundtrip voteSnap 5 true 2 rfl (by decide) (by omega)
    (by norm_num)

/-- Counterexample to C5 as stated: the precondition holds at voteSnap for
candidate 5, direction promote and N = 2^63, and all 2^63 casts succeed, but
by then the 64-bit vote counter has wrapped to -2^63, so the first revoke
already deletes the record and the second revoke fails: the N revokes do not
all succeed. -/
theorem castIter_uncastIter_overflow :
    voteSnap.SuperTally 5 = none ∧ validVoteSuper voteSnap 5 true = true ∧
    1 ≤ (2 ^ 63 : Nat) ∧
    (castIter 5 true (2 ^ 63) voteSnap).2 = true ∧
    (uncastIter 5 true (2 ^ 63) (castIter 5 true (2 ^ 63) voteSnap).1).2 = false := by
  have hv : validVoteSuper voteSnap 5 true = true := by decide
  have ht : voteSnap.SuperTally 5 = none := rfl
  have he : (2 ^ 63 - 1 : Nat) + 1 = 2 ^ 63 := by norm_num
  have hc := castIter_from_none 5 true voteSnap (2 ^ 63 - 1) hv ht
  rw [he] at hc
  have hneg : wrapInt64 (1 + ((2 ^ 63 - 1 : Nat) : Int)) = -(2 ^ 63) := by
    unfold wrapInt64
    norm_num
  have htally : (castIter 5 true (2 ^ 63) voteSnap).1.SuperTally 5 =
      some { Authorize := true, Votes := -(2 ^ 63) } := by
    rw [hc.1, hneg]
  refine ⟨ht, hv, by norm_num, hc.2.1, ?_⟩
  exact uncastIter_fail_after_del 5 true _ (2 ^ 63) _ htally rfl (by norm_num)
    (by norm_num)

/-- Membership after a Go map delete. -/
theorem mapDelete_mem (l : List Address) (a b : Address) :
    b ∈ mapDelete l a ↔ b ∈ l ∧ b ≠ a := by
  unfold mapDelete
  simp [List.mem_filter]

/-- Membership after a Go map insert. -/
theorem mapInsert_mem (l : List Address) (a b : Address) :
    b ∈ mapInsert l a ↔ b ∈ l ∨ b = a := by
  unfold mapInsert
  split
  · next h =>
    constructor
    · exact Or.inl
    · rintro (hb | rfl)
      · exact hb
      · exact h
  · simp [List.mem_append]

/-- Membership after a delete guarded by a presence test, as the removal loop
performs on SuperSigners. -/
theorem condDelete_mem (l : List Address) (o b : Address) :
    b ∈ (if o ∈ l then mapDelete l o else l) ↔ b ∈ l ∧ b ≠ o := by
  split
  · exact mapDelete_mem l o b
  · next h =>
    constructor
    · intro hb
      exact ⟨hb, fun he => h (he ▸ hb)⟩
    · exact fun hb => hb.1

/-- Signers after the removal loop: an address survives iff it was in the
accumulator and, when it is one of the iterated old signers, it belongs to the
new set. -/
theorem removeOldLoop_mem_fst (newSigners : List Address) (a : Address) :
    ∀ (olds : List Address) (acc : List Address × List Address),
      a ∈ (removeOldLoop newSigners olds acc).1 ↔
        a ∈ acc.1 ∧ (a ∈ olds → a ∈ newSigners) := by
  intro olds
  induction olds with
  | nil => intro acc; simp [removeOldLoop]
  | cons o rest ih =>
    intro acc
    simp only [removeOldLoop]
    by_cases ho : o ∈ newSigners
    · rw [if_pos ho, ih acc]
      by_cases ha : a = o
      · subst ha
        simp [ho]
      · simp only [List.mem_cons]
        tauto
    · rw [if_neg ho, ih _]
      simp only [mapDelete_mem, List.mem_cons]
      by_cases ha : a = o
      · subst ha
        simp [ho]
      · tauto

/-- SuperSigners after the removal loop: same survival condition, relative to
the second accumulator component. -/
theorem removeOldLoop_mem_snd (newSigners : List Address) (a : Address) :
    ∀ (olds : List Address) (acc : List Address × List Address),
      a ∈ (removeOldLoop newSigners olds acc).2 ↔
        a ∈ acc.2 ∧ (a ∈ olds → a ∈ newSigners) := by
  intro olds
  induction olds with
  | nil => intro acc; simp [removeOldLoop]
  | cons o rest ih =>
    intro acc
    simp only [removeOldLoop]
    by_cases ho : o ∈ newSigners
    · rw [if_pos ho, ih acc]
      by_cases ha : a = o
      · subst ha
        simp [ho]
      · simp only [List.mem_cons]
        tauto
    · rw [if_neg ho, ih _]
      simp only [condDelete_mem, List.mem_cons]
      by_cases ha : a = o
      · subst ha
        simp [ho]
      · tauto

/-- Signers after the addition loop: the accumulator gains exactly the target
addresses. -/
theorem addNewLoop_mem_fst (a : Address) :
    ∀ (entries : List PallasValidator) (acc : List Address × List Address),
      a ∈ (addNewLoop entries acc).1 ↔
        a ∈ acc.1 ∨ ∃ v ∈ entries, v.Address = a := by
  intro entries
  induction entries with
  | nil => intro acc; simp [addNewLoop]
  | cons v rest ih =>
    intro acc
    simp only [addNewLoop]
    rw [ih]
    have hstep : ∀ b : Address,
        (b ∈ (if v.Super then
            ((if v.Address ∈ acc.1 then acc else
              (acc.1 ++ [v.Address],
               if v.Super then mapInsert acc.2 v.Address else acc.2)).1,
             mapInsert (if v.Address ∈ acc.1 then acc else
              (acc.1 ++ [v.Address],
               if v.Super then mapInsert acc.2 v.Address else acc.2)).2 v.Address)
          else
            (if v.Address ∈ acc.1 then acc else
              (acc.1 ++ [v.Address],
               if v.Super then mapInsert acc.2 v.Address else acc.2))).1) ↔
          b ∈ acc.1 ∨ b = v.Address := by
      intro b
      by_cases hs : v.Super <;> by_cases hm : v.Address ∈ acc.1 <;>
        simp [hs, hm, List.mem_append] <;>
        exact fun hb => hb ▸ hm
    rw [hstep a]
    simp only [List.mem_cons]
    constructor
    · rintro ((hb | rfl) | ⟨w, hw, rfl⟩)
      · exact Or.inl hb
      · exact Or.inr ⟨v, Or.inl rfl, rfl⟩
      · exact Or.inr ⟨w, Or.inr hw, rfl⟩
    · rintro (hb | ⟨w, (rfl | hw), rfl⟩)
      · exact Or.inl (Or.inl hb)
      · exact Or.inl (Or.inr rfl)
      · exact Or.inr ⟨w, hw, rfl⟩

/-- SuperSigners after the addition loop: the accumulator gains exactly the
target addresses flagged super. -/
theorem addNewLoop_mem_snd (a : Address) :
    ∀ (entries : List PallasValidator) (acc : List Address × List Address),
      a ∈ (addNewLoop entries acc).2 ↔
        a ∈ acc.2 ∨ ∃ v ∈ entries, v.Address = a ∧ v.Super = true := by
  intro entries
  induction entries with
  | nil => intro acc; simp [addNewLoop]
  | cons v rest ih =>
    intro acc
    simp only [addNewLoop]
    rw [ih]
    have hstep : ∀ b : Address,
        (b ∈ (if v.Super then
            ((if v.Address ∈ acc.1 then acc else
              (acc.1 ++ [v.Address],
               if v.Super then mapInsert acc.2 v.Address else acc.2)).1,
             mapInsert (if v.Address ∈ acc.1 then acc else
              (acc.1 ++ [v.Address],
               if v.Super then mapInsert acc.2 v.Address else acc.2)).2 v.Address)
          else
            (if v.Address ∈ acc.1 then acc else
              (acc.1 ++ [v.Address],
               if v.Super then mapInsert acc.2 v.Address else acc.2))).2) ↔
          b ∈ acc.2 ∨ (b = v.Address ∧ v.Super = true) := by
      intro b
      by_cases hs : v.Super <;> by_cases hm : v.Address ∈ acc.1 <;>
        simp [hs, hm, mapInsert_mem]
    rw [hstep a]
    simp only [List.mem_cons]
    constructor
    · rintro ((hb | ⟨rfl, hsup⟩) | ⟨w, hw, rfl, hsup⟩)
      · exact Or.inl hb
      · exact Or.inr ⟨v, Or.inl rfl, rfl, hsup⟩
      · exact Or.inr ⟨w, Or.inr hw, rfl, hsup⟩
    · rintro (hb | ⟨w, (rfl | hw), rfl, hsup⟩)
      · exact Or.inl (Or.inl hb)
      · exact Or.inl (Or.inr ⟨rfl, hsup⟩)
      · exact Or.inr ⟨w, hw, rfl, hsup⟩

/-- C3: when pallas is active at the header block, the next block number is an
epoch boundary, and a target list is scheduled for it, the resulting SignerSet
is exactly the set of target-list addresses, and RecentProducers is cleared. -/
theorem applyPallasOverride_replaces_signers (s : Snapshot) (headerNumber : Nat)
    (nextSigners : List PallasValidator)
    (hact : isPallasActive s headerNumber = true)
    (hepoch : (headerNumber + 1) % s.config.Epoch = 0)
    (hsched : pallasValidatorsAt s (headerNumber + 1) = some nextSigners) :
    (∀ a : Address, a ∈ (applyPallasOverride s headerNumber).Signers ↔
      ∃ v ∈ nextSigners, v.Address = a) ∧
    (applyPallasOverride s headerNumber).Recents = [] := by
  unfold applyPallasOverride
  simp only [Nat.add_sub_cancel, hact, hepoch, hsched, if_true]
  refine ⟨fun a => ?_, trivial⟩
  rw [addNewLoop_mem_fst a nextSigners _, removeOldLoop_mem_fst _ a s.Signers _]
  simp only [List.mem_map]
  tauto

/-- Witness for C3 at overrideSwapSnap: after the override for block 2 applies
on top of header 1, address 20 is a signer exactly because it is listed, and
the recent-producers map is empty. -/
theorem applyPallasOverride_replaces_signers_witness :
    (20 ∈ (applyPallasOverride overrideSwapSnap 1).Signers ↔
      ∃ v ∈ overrideSwapList, v.Address = 20) ∧
    (applyPallasOverride overrideSwapSnap 1).Recents = [] :=
  ⟨(applyPallasOverride_replaces_signers overrideSwapSnap 1 overrideSwapList
      (by decide) (by decide) rfl).1 20,
   (applyPallasOverride_replaces_signers overrideSwapSnap 1 overrideSwapList
      (by decide) (by decide) rfl).2⟩

/-- C2 (amended): under the conditions of an applying override and the
SuperSignerSet ⊆ SignerSet invariant, the resulting SuperSignerSet consists of
the target addresses flagged super together with those previously-super
addresses that the target list retains: every address flagged super in the
target is super afterwards and every address absent from the target list is
not, but a retained address that was already super stays super even when its
target entry does not flag it. -/
theorem applyPallasOverride_supersigners (s : Snapshot) (headerNumber : Nat)
    (nextSigners : List PallasValidator)
    (hact : isPallasActive s headerNumber = true)
    (hepoch : (headerNumber + 1) % s.config.Epoch = 0)
    (hsched : pallasValidatorsAt s (headerNumber + 1) = some nextSigners)
    (hsub : ∀ a ∈ s.SuperSigners, a ∈ s.Signers) :
    ∀ a : Address, a ∈ (applyPallasOverride s headerNumber).SuperSigners ↔
      ((a ∈ s.SuperSigners ∧ ∃ v ∈ nextSigners, v.Address = a) ∨
       (∃ v ∈ nextSigners, v.Address = a ∧ v.Super = true)) := by
  unfold applyPallasOverride
  simp only [Nat.add_sub_cancel, hact, hepoch, hsched, if_true]
  intro a
  rw [addNewLoop_mem_snd a nextSigners _, removeOldLoop_mem_snd _ a s.Signers _]
  simp only [List.mem_map]
  constructor
  · rintro (⟨hsup, himp⟩ | hex)
    · exact Or.inl ⟨hsup, himp (hsub a hsup)⟩
    · exact Or.inr hex
  · rintro (⟨hsup, hex⟩ | hex)
    · exact Or.inl ⟨hsup, fun _ => hex⟩
    · exact Or.inr hex

/-- Witness for C2 (amended) at overrideKeepSnap, address 7. -/
theorem applyPallasOverride_supersigners_witness :
    7 ∈ (applyPallasOverride overrideKeepSnap 1).SuperSigners ↔
      ((7 ∈ overrideKeepSnap.SuperSigners ∧ ∃ v ∈ overrideKeepList, v.Address = 7) ∨
       (∃ v ∈ overrideKeepList, v.Address = 7 ∧ v.Super = true)) :=
  applyPallasOverride_supersigners overrideKeepSnap 1 overrideKeepList
    (by decide) (by decide) rfl (by decide) 7

/-- Counterexample to C2 as stated: in overrideKeepSnap the scheduled override
applies (pallas active at header 1, block 2 is an epoch boundary, a list is
scheduled for block 2), no entry of the target list carries the super flag,
yet the retained address 7, super beforehand, is still super afterwards. -/
theorem applyPallasOverride_keeps_stale_super :
    isPallasActive overrideKeepSnap 1 = true ∧
    (1 + 1) % overrideKeepSnap.config.Epoch = 0 ∧
    pallasValidatorsAt overrideKeepSnap (1 + 1) = some overrideKeepList ∧
    (∀ v ∈ overrideKeepList, v.Super = false) ∧
    7 ∈ (applyPallasOverride overrideKeepSnap 1).SuperSigners := by
  refine ⟨by decide, by decide, rfl, by decide, ?_⟩
  decide

end Pallas
